import Mathlib

/- Shallow embedding of the Klondike solitaire rules engine:
   src/game/card.rs, src/game/actions.rs, src/game/state.rs.

   Conventions:
   - Rust `Vec<T>` becomes `List T`; `pop` from the tail is `getLast?` / `dropLast`,
     `push` is append at the tail.
   - The fixed-size arrays `[Vec<Card>; 7]` and `[Vec<Card>; 4]` become lists whose
     length-7 / length-4 facts are carried as hypotheses where needed.
   - Possibly-panicking operations (indexing, `usize` subtraction) are made explicit:
     functions that index return `Option`, where `none` marks a would-be panic.
   - The ambient shuffle (`thread_rng`) is made explicit: constructors and
     `handle_action` take the shuffled deck as a parameter.
   - `start_time : SystemTime` is wall-clock data outside the embedding and is omitted;
     no claim mentions it. -/

inductive Suit
  | Hearts | Diamonds | Clubs | Spades
  deriving DecidableEq

inductive Rank
  | Ace | Two | Three | Four | Five | Six | Seven
  | Eight | Nine | Ten | Jack | Queen | King
  deriving DecidableEq

/-- The `u8` value of a rank (`Rank::Ace = 1` .. `Rank::King = 13`). -/
def Rank.val : Rank → Nat
  | Rank.Ace => 1
  | Rank.Two => 2
  | Rank.Three => 3
  | Rank.Four => 4
  | Rank.Five => 5
  | Rank.Six => 6
  | Rank.Seven => 7
  | Rank.Eight => 8
  | Rank.Nine => 9
  | Rank.Ten => 10
  | Rank.Jack => 11
  | Rank.Queen => 12
  | Rank.King => 13

structure Card where
  suit : Suit
  rank : Rank
  face_up : Bool
  deriving DecidableEq

/-- Rust `Card::is_red`. -/
def Card.is_red (c : Card) : Bool :=
  match c.suit with
  | Suit.Hearts | Suit.Diamonds => true
  | _ => false

/-- Rust `Card::is_black`. -/
def Card.is_black (c : Card) : Bool :=
  match c.suit with
  | Suit.Clubs | Suit.Spades => true
  | _ => false

/-- Rust `Card::can_place_on_tableau`. -/
def Card.can_place_on_tableau (c other : Card) : Bool :=
  if !other.face_up then false
  else
    let colors_alternate := (c.is_red && other.is_black) || (c.is_black && other.is_red)
    let rank_valid := c.rank.val == other.rank.val - 1
    colors_alternate && rank_valid

/-- Rust `Card::can_place_on_foundation`. -/
def Card.can_place_on_foundation (c : Card) (foundation_top : Option Card) : Bool :=
  match foundation_top with
  | none => decide (c.rank = Rank.Ace)
  | some top => decide (c.suit = top.suit) && (c.rank.val == top.rank.val + 1)

/-- Rust `Suit::all`. -/
def Suit.all : List Suit := [Suit.Hearts, Suit.Diamonds, Suit.Clubs, Suit.Spades]

/-- Rust `Rank::all`. -/
def Rank.all : List Rank :=
  [Rank.Ace, Rank.Two, Rank.Three, Rank.Four, Rank.Five, Rank.Six, Rank.Seven,
   Rank.Eight, Rank.Nine, Rank.Ten, Rank.Jack, Rank.Queen, Rank.King]

/-- Rust `create_deck`: all 52 cards, suit-major, all face-down. -/
def create_deck : List Card :=
  Suit.all.flatMap fun suit =>
    Rank.all.map fun rank => { suit := suit, rank := rank, face_up := false }

inductive Position
  | Tableau (col idx : Nat)
  | Foundation (idx : Nat)
  | Stock
  | Waste (idx : Nat)
  deriving DecidableEq

inductive DrawCount
  | One
  | Three
  deriving DecidableEq

inductive GameAction
  | MoveCard (origin dest : Position)
  | FlipCard (pos : Position)
  | DealFromStock
  | NewGame
  | Undo
  deriving DecidableEq

structure GameState where
  tableau : List (List Card)
  foundations : List (List Card)
  stock : List Card
  waste : List Card
  move_count : Nat
  game_won : Bool
  draw_count : DrawCount
  deriving DecidableEq

/-- Checked `usize` subtraction: `none` marks a would-be underflow panic. -/
def checkedSub (a b : Nat) : Option Nat :=
  if b ≤ a then some (a - b) else none

/-- The inner dealing loop of `GameState::new`
    (`for row in 0..=col { if card_index < deck.len() { ... } }`), over the
    remaining row indices; the state is the tableau plus `card_index`. -/
def dealInner (deck : List Card) (col : Nat) :
    List Nat → List (List Card) × Nat → List (List Card) × Nat
  | [], st => st
  | row :: rows, (tab, card_index) =>
    match deck[card_index]? with
    | none => dealInner deck col rows (tab, card_index)
    | some card =>
      dealInner deck col rows
        (tab.set col (tab.getD col [] ++ [{ card with face_up := decide (row = col) }]),
         card_index + 1)

/-- The outer dealing loop of `GameState::new` (`for col in 0..7`). -/
def dealOuter (deck : List Card) :
    List Nat → List (List Card) × Nat → List (List Card) × Nat
  | [], st => st
  | col :: cols, st => dealOuter deck cols (dealInner deck col (List.range (col + 1)) st)

/-- Rust `GameState::new`, with the shuffled deck passed explicitly (the source shuffles a
    fresh `create_deck` with `thread_rng`; a shuffle outcome is a permutation of
    `create_deck`). -/
def GameState.new (deck : List Card) : GameState :=
  let p := dealOuter deck (List.range 7) (List.replicate 7 [], 0)
  { tableau := p.1
    foundations := List.replicate 4 []
    stock := deck.drop p.2
    waste := []
    move_count := 0
    game_won := false
    draw_count := DrawCount.Three }

/-- Rust `GameState::new_with_draw_count`. -/
def GameState.new_with_draw_count (deck : List Card) (draw_count : DrawCount) : GameState :=
  { GameState.new deck with draw_count := draw_count }

/-- The recycle loop of `deal_from_stock`
    (`while let Some(mut card) = self.waste.pop() { card.face_up = false; self.stock.push(card) }`),
    run with fuel; called with fuel `s.waste.length`, exactly the number of iterations
    the Rust loop makes. -/
def recycleLoop : Nat → GameState → GameState
  | 0, s => s
  | fuel + 1, s =>
    match s.waste.getLast? with
    | none => s
    | some card =>
      recycleLoop fuel
        { s with waste := s.waste.dropLast
                 stock := s.stock ++ [{ card with face_up := false }] }

/-- Rust `cards_to_deal` in `deal_from_stock`. -/
def dealCount (draw_count : DrawCount) (stockLen : Nat) : Nat :=
  match draw_count with
  | DrawCount.One => 1
  | DrawCount.Three => min 3 stockLen

/-- The dealing loop of `deal_from_stock`
    (`for _ in 0..cards_to_deal { if let Some(mut card) = self.stock.pop() { ... } }`). -/
def dealLoop : Nat → GameState → GameState
  | 0, s => s
  | n + 1, s =>
    match s.stock.getLast? with
    | none => dealLoop n s
    | some card =>
      dealLoop n
        { s with stock := s.stock.dropLast
                 waste := s.waste ++ [{ card with face_up := true }] }

/-- Rust `GameState::deal_from_stock`. -/
def GameState.deal_from_stock (s : GameState) : GameState × Except String Unit :=
  if s.stock.isEmpty then
    if s.waste.isEmpty then (s, Except.error "Both stock and waste are empty")
    else
      let s2 := recycleLoop s.waste.length s
      ({ s2 with move_count := s2.move_count + 1 }, Except.ok ())
  else
    let s2 := dealLoop (dealCount s.draw_count s.stock.length) s
    ({ s2 with move_count := s2.move_count + 1 }, Except.ok ())

/-- Rust `GameState::flip_card`; `none` marks a would-be panic. -/
def GameState.flip_card (s : GameState) (position : Position) :
    Option (GameState × Except String Unit) :=
  match position with
  | Position.Tableau col idx =>
    if 7 ≤ col then some (s, Except.error "Invalid tableau column")
    else
      match s.tableau[col]? with
      | none => none
      | some pile =>
        if pile.length ≤ idx then some (s, Except.error "Invalid card index in tableau")
        else
          match checkedSub pile.length 1 with
          | none => none
          | some lastIdx =>
            if idx ≠ lastIdx then some (s, Except.error "Can only flip the top card")
            else
              match pile[idx]? with
              | none => none
              | some card =>
                if card.face_up then some (s, Except.error "Card is already face-up")
                else
                  some
                    ({ s with
                        tableau := s.tableau.set col (pile.set idx { card with face_up := true })
                        move_count := s.move_count + 1 },
                     Except.ok ())
  | _ => some (s, Except.error "Can only flip cards in tableau")

/-- Rust `GameState::move_card` — the source body is a stub that always errs. -/
def GameState.move_card (s : GameState) (_origin _dest : Position) :
    GameState × Except String Unit :=
  (s, Except.error "Card moving not implemented yet")

/-- Rust `GameState::can_click_position`; `none` marks a would-be panic. -/
def GameState.can_click_position (s : GameState) (position : Position) : Option Bool :=
  match position with
  | Position.Stock => some true
  | Position.Tableau col idx =>
    if 7 ≤ col then some false
    else
      match s.tableau[col]? with
      | none => none
      | some pile =>
        if pile.length ≤ idx then some false
        else
          match checkedSub pile.length 1 with
          | none => none
          | some lastIdx => some (decide (idx = lastIdx))
  | Position.Waste _ => some false
  | Position.Foundation _ => some false

/-- Rust `GameState::handle_action`; `deck` is the shuffle outcome consumed by `NewGame`. -/
def GameState.handle_action (deck : List Card) (s : GameState) (action : GameAction) :
    Option (GameState × Except String Unit) :=
  match action with
  | GameAction.DealFromStock => some s.deal_from_stock
  | GameAction.FlipCard position => s.flip_card position
  | GameAction.MoveCard origin dest => some (s.move_card origin dest)
  | GameAction.NewGame => some (GameState.new_with_draw_count deck s.draw_count, Except.ok ())
  | GameAction.Undo => some (s, Except.error "Undo not implemented yet")

/-- States reachable from `s` by successful or failed `handle_action` calls, each
    `NewGame` consuming some shuffle outcome (a permutation of `create_deck`). -/
inductive Reaches : GameState → GameState → Prop
  | refl (s : GameState) : Reaches s s
  | step (s t u : GameState) (deck : List Card) (action : GameAction)
      (r : Except String Unit) :
      Reaches s t → deck.Perm create_deck →
      GameState.handle_action deck t action = some (u, r) → Reaches s u

/-- The identity of a card, ignoring orientation. -/
def keyOf (c : Card) : Suit × Rank := (c.suit, c.rank)

/-- All cards in a state, across every pile. -/
def GameState.allCards (s : GameState) : List Card :=
  s.tableau.flatten ++ s.foundations.flatten ++ s.stock ++ s.waste

/-- Modelled from the spec: validity of a liftable tableau run (spec section 4.5) —
    the source has no sequence extractor; every card face-up and each card one rank
    below, opposite color from, its predecessor. -/
def spec_valid_run : List Card → Bool
  | [] => true
  | [c] => c.face_up
  | c :: d :: rest => c.face_up && d.can_place_on_tableau c && spec_valid_run (d :: rest)

/-- Modelled from the spec: `get_cards_at_position` (spec section 4.5) is absent from
    the source; the liftable run at a position, following the words of the spec. -/
def spec_get_cards_at_position (s : GameState) (position : Position) : List Card :=
  match position with
  | Position.Stock => []
  | Position.Waste idx =>
    match s.waste[idx]? with
    | some c => if idx + 1 = s.waste.length then [c] else []
    | none => []
  | Position.Foundation pile =>
    match (s.foundations.getD pile []).getLast? with
    | some c => [c]
    | none => []
  | Position.Tableau col idx =>
    let run := (s.tableau.getD col []).drop idx
    if run.isEmpty then []
    else if spec_valid_run run then run else []

/- ------------------------------------------------------------------ -/
/- Helper lemmas                                                       -/
/- ------------------------------------------------------------------ -/

/-- Case analysis of `flip_card`: either it fails and returns the state unchanged,
    or it succeeds, flipping the addressed top card and bumping `move_count`. -/
lemma flip_card_cases (s t : GameState) (pos : Position) (r : Except String Unit)
    (h : s.flip_card pos = some (t, r)) :
    t = s ∨
    ∃ col idx pile card, pos = Position.Tableau col idx ∧
      s.tableau[col]? = some pile ∧ pile[idx]? = some card ∧
      r = Except.ok () ∧
      t = { s with
              tableau := s.tableau.set col (pile.set idx { card with face_up := true })
              move_count := s.move_count + 1 } := by
  cases pos with
  | Tableau col idx =>
    simp only [GameState.flip_card] at h
    by_cases hc : 7 ≤ col
    · rw [if_pos hc] at h
      left
      exact (Prod.mk.injEq _ _ _ _ ▸ (Option.some.injEq _ _ ▸ h)).1.symm
    · rw [if_neg hc] at h
      cases hp : s.tableau[col]? with
      | none => rw [hp] at h; cases h
      | some pile =>
        rw [hp] at h
        simp only at h
        by_cases hi : pile.length ≤ idx
        · rw [if_pos hi] at h
          left
          exact (Prod.mk.injEq _ _ _ _ ▸ (Option.some.injEq _ _ ▸ h)).1.symm
        · rw [if_neg hi] at h
          have hone : checkedSub pile.length 1 = some (pile.length - 1) := by
            unfold checkedSub
            rw [if_pos (by omega)]
          rw [hone] at h
          simp only at h
          by_cases hlast : idx ≠ pile.length - 1
          · rw [if_pos hlast] at h
            left
            exact (Prod.mk.injEq _ _ _ _ ▸ (Option.some.injEq _ _ ▸ h)).1.symm
          · rw [if_neg hlast] at h
            cases hcard : pile[idx]? with
            | none => rw [hcard] at h; cases h
            | some card =>
              rw [hcard] at h
              simp only at h
              by_cases hface : card.face_up
              · rw [if_pos hface] at h
                left
                exact (Prod.mk.injEq _ _ _ _ ▸ (Option.some.injEq _ _ ▸ h)).1.symm
              · rw [if_neg hface] at h
                right
                refine ⟨col, idx, pile, card, rfl, hp, hcard, ?_, ?_⟩
                · exact ((Prod.mk.injEq _ _ _ _ ▸ (Option.some.injEq _ _ ▸ h)).2).symm
                · exact (Prod.mk.injEq _ _ _ _ ▸ (Option.some.injEq _ _ ▸ h)).1.symm
  | Foundation i =>
    left
    simp only [GameState.flip_card, Option.some.injEq, Prod.mk.injEq] at h
    exact h.1.symm
  | Stock =>
    left
    simp only [GameState.flip_card, Option.some.injEq, Prod.mk.injEq] at h
    exact h.1.symm
  | Waste i =>
    left
    simp only [GameState.flip_card, Option.some.injEq, Prod.mk.injEq] at h
    exact h.1.symm

/-- Lemma: `deal_from_stock` can only err with the state unchanged. -/
lemma deal_from_stock_error (s t : GameState) (msg : String)
    (h : s.deal_from_stock = (t, Except.error msg)) : t = s := by
  unfold GameState.deal_from_stock at h
  split_ifs at h
  · exact (Prod.mk.injEq _ _ _ _ ▸ h).1.symm
  · simp only [Prod.mk.injEq] at h
    cases h.2
  · simp only [Prod.mk.injEq] at h
    cases h.2

/- ------------------------------------------------------------------ -/
/- Concrete states used by witnesses and counterexamples               -/
/- ------------------------------------------------------------------ -/

/-- A small concrete state: one face-down card in column 0, one card in stock. -/
def sampleState : GameState :=
  { tableau := [[{ suit := Suit.Hearts, rank := Rank.Ace, face_up := false }], [], [], [], [], [], []]
    foundations := [[], [], [], []]
    stock := [{ suit := Suit.Spades, rank := Rank.Two, face_up := false }]
    waste := []
    move_count := 0
    game_won := false
    draw_count := DrawCount.One }

/-- A concrete state holding a face-up King of Hearts in column 0, column 1 empty. -/
def c1State : GameState :=
  { tableau := [[{ suit := Suit.Hearts, rank := Rank.King, face_up := true }], [], [], [], [], [], []]
    foundations := [[], [], [], []]
    stock := []
    waste := []
    move_count := 0
    game_won := false
    draw_count := DrawCount.Three }

/- ------------------------------------------------------------------ -/
/- Claims                                                              -/
/- ------------------------------------------------------------------ -/

/-- Claim C1, counterexample: in `c1State` the liftable run at `Tableau(0,0)` is the
    single face-up King of Hearts, the destination column 1 is empty (legal for a
    King-led run), and the destination is not the source pile — yet `MoveCard` does not
    succeed: the source `move_card` is a stub, so `handle_action` returns the error
    "Card moving not implemented yet" with the state unchanged and `move_count` still 0. -/
theorem c1_counterexample :
    spec_get_cards_at_position c1State (Position.Tableau 0 0) =
      [{ suit := Suit.Hearts, rank := Rank.King, face_up := true }] ∧
    (spec_get_cards_at_position c1State (Position.Tableau 0 0)).length = 1 ∧
    c1State.tableau.getD 1 [] = [] ∧
    ({ suit := Suit.Hearts, rank := Rank.King, face_up := true } : Card).rank = Rank.King ∧
    (1 : Nat) ≠ 0 ∧
    GameState.handle_action [] c1State
        (GameAction.MoveCard (Position.Tableau 0 0) (Position.Tableau 1 0)) =
      some (c1State, Except.error "Card moving not implemented yet") ∧
    c1State.move_count = 0 :=
  ⟨rfl, rfl, rfl, rfl, by decide, rfl, rfl⟩

/-- Claim C1 (amended): `move_card` is an unimplemented stub in the source, so for every
    deck, state and pair of positions, `MoveCard{from, to}` fails with
    "Card moving not implemented yet" and leaves the state unchanged — it never removes a
    run, appends cards, increments `move_count` or recomputes `game_won`. -/
theorem c1_move_card_always_errs (deck : List Card) (s : GameState) (origin dest : Position) :
    GameState.handle_action deck s (GameAction.MoveCard origin dest) =
      some (s, Except.error "Card moving not implemented yet") := rfl

/-- Claim C3: whenever `handle_action` returns an error, the resulting state is the state
    before the call — every pile, `move_count`, `game_won` and `draw_count` unchanged. -/
theorem c3_rejected_action_leaves_state (deck : List Card) (s : GameState)
    (action : GameAction) (t : GameState) (msg : String)
    (h : GameState.handle_action deck s action = some (t, Except.error msg)) : t = s := by
  cases action with
  | MoveCard origin dest =>
    simp only [GameState.handle_action, GameState.move_card, Option.some.injEq,
      Prod.mk.injEq] at h
    exact h.1.symm
  | FlipCard pos =>
    simp only [GameState.handle_action] at h
    rcases flip_card_cases s t pos (Except.error msg) h with h1 | ⟨_, _, _, _, _, _, _, hr, _⟩
    · exact h1
    · cases hr
  | DealFromStock =>
    simp only [GameState.handle_action, Option.some.injEq] at h
    exact deal_from_stock_error s t msg h
  | NewGame =>
    simp only [GameState.handle_action, Option.some.injEq, Prod.mk.injEq] at h
    cases h.2
  | Undo =>
    simp only [GameState.handle_action, Option.some.injEq, Prod.mk.injEq] at h
    exact h.1.symm

/-- Witness for C3 at a concrete input: `Undo` is rejected and the state is unchanged. -/
theorem c3_witness :
    GameState.handle_action [] sampleState GameAction.Undo =
      some (sampleState, Except.error "Undo not implemented yet") ∧
    sampleState = sampleState :=
  ⟨rfl, c3_rejected_action_leaves_state [] sampleState GameAction.Undo sampleState
    "Undo not implemented yet" rfl⟩

/-- Claim C9: `NewGame` always succeeds, and the resulting state is a freshly dealt game
    whose `draw_count` equals the `draw_count` before the action. -/
theorem c9_new_game (deck : List Card) (s : GameState) :
    GameState.handle_action deck s GameAction.NewGame =
      some (GameState.new_with_draw_count deck s.draw_count, Except.ok ()) ∧
    GameState.new_with_draw_count deck s.draw_count =
      { GameState.new deck with draw_count := s.draw_count } ∧
    (GameState.new_with_draw_count deck s.draw_count).draw_count = s.draw_count :=
  ⟨rfl, rfl, rfl⟩

/-- Claim C10: the zero-argument constructor `GameState::new` always sets `draw_count` to
    `Three`; `new_with_draw_count` is the only constructor producing the requested mode. -/
theorem c10_default_draw_count (deck : List Card) (dc : DrawCount) :
    (GameState.new deck).draw_count = DrawCount.Three ∧
    (GameState.new_with_draw_count deck dc).draw_count = dc :=
  ⟨rfl, rfl⟩

/-- Claim C7: `FlipCard` succeeds exactly on the face-down top card of an in-range tableau
    column, flipping it face-up and incrementing `move_count`; each failure surfaces as the
    error string of the code for InvalidColumn / InvalidIndex / NotTopCard / AlreadyFaceUp /
    WrongPileKind respectively. -/
theorem c7_flip_card (s : GameState) (col idx : Nat) :
    (7 ≤ col →
      s.flip_card (Position.Tableau col idx) =
        some (s, Except.error "Invalid tableau column")) ∧
    (∀ pile, ¬ 7 ≤ col → s.tableau[col]? = some pile → pile.length ≤ idx →
      s.flip_card (Position.Tableau col idx) =
        some (s, Except.error "Invalid card index in tableau")) ∧
    (∀ pile, ¬ 7 ≤ col → s.tableau[col]? = some pile → idx < pile.length →
      idx + 1 ≠ pile.length →
      s.flip_card (Position.Tableau col idx) =
        some (s, Except.error "Can only flip the top card")) ∧
    (∀ pile card, ¬ 7 ≤ col → s.tableau[col]? = some pile → pile[idx]? = some card →
      idx + 1 = pile.length → card.face_up = true →
      s.flip_card (Position.Tableau col idx) =
        some (s, Except.error "Card is already face-up")) ∧
    (∀ pile card, ¬ 7 ≤ col → s.tableau[col]? = some pile → pile[idx]? = some card →
      idx + 1 = pile.length → card.face_up = false →
      s.flip_card (Position.Tableau col idx) =
        some ({ s with
                  tableau := s.tableau.set col (pile.set idx { card with face_up := true })
                  move_count := s.move_count + 1 },
              Except.ok ())) ∧
    (s.flip_card Position.Stock = some (s, Except.error "Can only flip cards in tableau")) ∧
    (∀ i, s.flip_card (Position.Foundation i) =
      some (s, Except.error "Can only flip cards in tableau")) ∧
    (∀ i, s.flip_card (Position.Waste i) =
      some (s, Except.error "Can only flip cards in tableau")) := by
  refine ⟨?_, ?_, ?_, ?_, ?_, rfl, fun i => rfl, fun i => rfl⟩
  · intro hc
    simp [GameState.flip_card, hc]
  · intro pile hc hp hi
    simp [GameState.flip_card, hc, hp, hi]
  · intro pile hc hp hlt hne
    have h1 : ¬ pile.length ≤ idx := by omega
    have h2 : checkedSub pile.length 1 = some (pile.length - 1) := by
      unfold checkedSub
      rw [if_pos (by omega)]
    have h3 : idx ≠ pile.length - 1 := by omega
    simp [GameState.flip_card, hc, hp, h1, h2, h3]
  · intro pile card hc hp hcard hlast hface
    have hlt : idx < pile.length := by
      obtain ⟨h, _⟩ := List.getElem?_eq_some_iff.1 hcard
      exact h
    have h1 : ¬ pile.length ≤ idx := by omega
    have h2 : checkedSub pile.length 1 = some (pile.length - 1) := by
      unfold checkedSub
      rw [if_pos (by omega)]
    have h3 : ¬ idx ≠ pile.length - 1 := by omega
    simp [GameState.flip_card, hc, hp, h1, h2, h3, hcard, hface]
  · intro pile card hc hp hcard hlast hface
    have hlt : idx < pile.length := by
      obtain ⟨h, _⟩ := List.getElem?_eq_some_iff.1 hcard
      exact h
    have h1 : ¬ pile.length ≤ idx := by omega
    have h2 : checkedSub pile.length 1 = some (pile.length - 1) := by
      unfold checkedSub
      rw [if_pos (by omega)]
    have h3 : ¬ idx ≠ pile.length - 1 := by omega
    simp [GameState.flip_card, hc, hp, h1, h2, h3, hcard, hface]

/-- Witness for C7 at a concrete input: flipping the face-down single card of column 0 of
    `sampleState` succeeds, and flipping `Stock` is rejected as a wrong pile kind. -/
theorem c7_flip_card_witness :
    sampleState.flip_card (Position.Tableau 0 0) =
      some ({ sampleState with
                tableau := [[{ suit := Suit.Hearts, rank := Rank.Ace, face_up := true }],
                            [], [], [], [], [], []]
                move_count := 1 },
            Except.ok ()) ∧
    sampleState.flip_card Position.Stock =
      some (sampleState, Except.error "Can only flip cards in tableau") := by
  constructor
  · exact (c7_flip_card sampleState 0 0).2.2.2.2.1
      [{ suit := Suit.Hearts, rank := Rank.Ace, face_up := false }]
      { suit := Suit.Hearts, rank := Rank.Ace, face_up := false }
      (by decide) rfl rfl rfl rfl
  · exact (c7_flip_card sampleState 0 0).2.2.2.2.2.1

/-- Claim C8: for every state with the seven tableau columns present and every structurally
    valid action or position, `handle_action`, `flip_card` and `can_click_position` never
    panic: every result is `some` — out-of-range input surfaces as an error value or
    `false`, never as an out-of-bounds access or an arithmetic underflow (`none`). -/
theorem c8_no_panic (s : GameState) (h7 : s.tableau.length = 7) :
    (∀ deck action, (GameState.handle_action deck s action).isSome = true) ∧
    (∀ position, (s.flip_card position).isSome = true) ∧
    (∀ position, (s.can_click_position position).isSome = true) := by
  have hflip : ∀ position, (s.flip_card position).isSome = true := by
    intro position
    cases position with
    | Tableau col idx =>
      by_cases hc : 7 ≤ col
      · simp [GameState.flip_card, hc]
      · have hlt : col < s.tableau.length := by omega
        by_cases hi : s.tableau[col].length ≤ idx
        · simp [GameState.flip_card, hc, hi, List.getElem?_eq_getElem hlt]
        · have hone : checkedSub (s.tableau[col]).length 1 =
              some ((s.tableau[col]).length - 1) := by
            unfold checkedSub
            rw [if_pos (by omega)]
          have hidx : idx < (s.tableau[col]).length := by omega
          simp only [GameState.flip_card, List.getElem?_eq_getElem hlt, hc, if_false,
            hi, hone, List.getElem?_eq_getElem hidx]
          split_ifs <;> simp
    | Foundation i => rfl
    | Stock => rfl
    | Waste i => rfl
  refine ⟨?_, hflip, ?_⟩
  · intro deck action
    cases action with
    | MoveCard origin dest => rfl
    | FlipCard pos => exact hflip pos
    | DealFromStock => rfl
    | NewGame => rfl
    | Undo => rfl
  · intro position
    cases position with
    | Tableau col idx =>
      by_cases hc : 7 ≤ col
      · simp [GameState.can_click_position, hc]
      · have hlt : col < s.tableau.length := by omega
        by_cases hi : s.tableau[col].length ≤ idx
        · simp [GameState.can_click_position, hc, hi, List.getElem?_eq_getElem hlt]
        · have hone : checkedSub (s.tableau[col]).length 1 =
              some ((s.tableau[col]).length - 1) := by
            unfold checkedSub
            rw [if_pos (by omega)]
          simp [GameState.can_click_position, hc, hi, List.getElem?_eq_getElem hlt, hone]
    | Foundation i => rfl
    | Stock => rfl
    | Waste i => rfl

/-- Witness for C8 at a concrete input: no panic on `sampleState`, including an
    out-of-range flip and an out-of-range click. -/
theorem c8_no_panic_witness :
    ((GameState.handle_action [] sampleState
        (GameAction.FlipCard (Position.Tableau 9 5))).isSome = true) ∧
    ((sampleState.flip_card (Position.Tableau 0 3)).isSome = true) ∧
    ((sampleState.can_click_position (Position.Tableau 6 0)).isSome = true) := by
  have h := c8_no_panic sampleState rfl
  exact ⟨h.1 [] (GameAction.FlipCard (Position.Tableau 9 5)),
         h.2.1 (Position.Tableau 0 3),
         h.2.2 (Position.Tableau 6 0)⟩

/-- The recycle loop, run with fuel equal to the waste size, drains the waste onto the
    tail of the stock, face-down, in reverse waste order. -/
lemma recycleLoop_spec : ∀ (n : Nat) (s : GameState), s.waste.length = n →
    recycleLoop n s =
      { s with waste := []
               stock := s.stock ++
                 s.waste.reverse.map (fun c => { c with face_up := false }) } := by
  intro n
  induction n with
  | zero =>
    intro s h
    have hw : s.waste = [] := List.eq_nil_of_length_eq_zero h
    cases s
    simp only at hw
    simp [recycleLoop, hw]
  | succ n ih =>
    intro s h
    have hne : s.waste ≠ [] := by
      intro he
      rw [he] at h
      simp at h
    rw [recycleLoop, List.getLast?_eq_getLast _ hne]
    simp only
    rw [ih _ (by simp [List.length_dropLast]; omega)]
    have hw : s.waste.reverse =
        s.waste.getLast hne :: s.waste.dropLast.reverse := by
      conv_lhs => rw [← List.dropLast_append_getLast hne]
      rw [List.reverse_concat]
    simp [hw, List.append_assoc]

/-- The deal loop, run `n ≤ stock.length` times, pops the last `n` stock cards and appends
    them, reversed and face-up, to the waste. -/
lemma dealLoop_spec : ∀ (n : Nat) (s : GameState), n ≤ s.stock.length →
    dealLoop n s =
      { s with stock := s.stock.take (s.stock.length - n)
               waste := s.waste ++
                 ((s.stock.drop (s.stock.length - n)).reverse.map
                   (fun c => { c with face_up := true })) } := by
  intro n
  induction n with
  | zero =>
    intro s _
    cases s
    simp [dealLoop, List.take_length, List.drop_length]
  | succ n ih =>
    intro s h
    obtain ⟨tab, found, stock, waste, mc, won, dc⟩ := s
    simp only at h ⊢
    rcases stock.eq_nil_or_concat with rfl | ⟨l, a, rfl⟩
    · simp at h
    · simp only [List.concat_eq_append] at h ⊢
      have hlen : n ≤ l.length := by
        simp only [List.length_append, List.length_cons, List.length_nil] at h
        omega
      rw [dealLoop]
      simp only [List.getLast?_concat, List.dropLast_concat]
      rw [ih _ (by simpa using hlen)]
      have e1 : (l ++ [a]).length - (n + 1) = l.length - n := by
        simp [List.length_append]
      have e2 : (l ++ [a]).take (l.length - n) = l.take (l.length - n) :=
        List.take_append_of_le_length (by omega)
      have e3 : (l ++ [a]).drop (l.length - n) = l.drop (l.length - n) ++ [a] :=
        List.drop_append_of_le_length (by omega)
      simp [e1, e2, e3, List.reverse_append, List.append_assoc]

/-- Claim C6: with stock non-empty, `DealFromStock` pops exactly `dealCount` cards — 1 in
    `One` mode, `min 3 stock.len` in `Three` mode — from the end of the stock, appends them
    face-up to the end of the waste, and increments `move_count` by one. -/
theorem c6_deal_moves_draw_count (s : GameState) (h : s.stock ≠ []) :
    s.deal_from_stock =
      ({ s with
           stock := s.stock.take (s.stock.length - dealCount s.draw_count s.stock.length)
           waste := s.waste ++
             ((s.stock.drop (s.stock.length - dealCount s.draw_count s.stock.length)).reverse.map
               (fun c => { c with face_up := true }))
           move_count := s.move_count + 1 }, Except.ok ()) ∧
    dealCount DrawCount.One s.stock.length = 1 ∧
    dealCount DrawCount.Three s.stock.length = min 3 s.stock.length ∧
    (s.stock.drop (s.stock.length - dealCount s.draw_count s.stock.length)).length =
      dealCount s.draw_count s.stock.length ∧
    (s.stock.take (s.stock.length - dealCount s.draw_count s.stock.length)).length =
      s.stock.length - dealCount s.draw_count s.stock.length ∧
    (∀ c ∈ (s.stock.drop
        (s.stock.length - dealCount s.draw_count s.stock.length)).reverse.map
          (fun c => { c with face_up := true }), c.face_up = true) := by
  have hpos : 0 < s.stock.length := List.length_pos.2 h
  have hn : dealCount s.draw_count s.stock.length ≤ s.stock.length := by
    cases s.draw_count
    · simp [dealCount]
      omega
    · simp [dealCount]
  have hnpos : 0 < dealCount s.draw_count s.stock.length := by
    cases s.draw_count
    · simp [dealCount]
    · simp [dealCount]
      omega
  refine ⟨?_, rfl, rfl, ?_, ?_, ?_⟩
  · unfold GameState.deal_from_stock
    rw [if_neg (by simp [List.isEmpty_iff, h])]
    rw [dealLoop_spec _ _ hn]
  · simp only [List.length_drop]
    omega
  · simp only [List.length_take]
    omega
  · intro c hc
    simp only [List.mem_map] at hc
    obtain ⟨d, _, rfl⟩ := hc
    rfl

/-- Witness for C6 at a concrete input: dealing from `sampleState` (draw `One`, one stock
    card) moves that card face-up to the waste and bumps `move_count` to 1. -/
theorem c6_deal_moves_draw_count_witness :
    sampleState.deal_from_stock =
      ({ sampleState with
           stock := []
           waste := [{ suit := Suit.Spades, rank := Rank.Two, face_up := true }]
           move_count := 1 }, Except.ok ()) ∧
    dealCount DrawCount.One sampleState.stock.length = 1 := by
  have h := c6_deal_moves_draw_count sampleState (by decide)
  exact ⟨h.1, h.2.1⟩

/-- A concrete state with empty stock and a two-card waste: the Ace of Hearts was dealt
    first (least recently), the Two of Spades most recently. -/
def c4State : GameState :=
  { tableau := List.replicate 7 []
    foundations := List.replicate 4 []
    stock := []
    waste := [{ suit := Suit.Hearts, rank := Rank.Ace, face_up := true },
              { suit := Suit.Spades, rank := Rank.Two, face_up := true }]
    move_count := 0
    game_won := false
    draw_count := DrawCount.One }

/-- Claim C4, counterexample: recycling `c4State` moves both waste cards to the stock
    face-down, reversed; but on the next pass through the stock the least-recently-dealt
    card (the Ace, the head of the old waste) is dealt FIRST, not last — the pass ends on
    the Two, refuting the parenthetical of the claim. -/
theorem c4_counterexample :
    c4State.stock = [] ∧
    c4State.waste.head? = some { suit := Suit.Hearts, rank := Rank.Ace, face_up := true } ∧
    c4State.deal_from_stock =
      ({ c4State with
           stock := [{ suit := Suit.Spades, rank := Rank.Two, face_up := false },
                     { suit := Suit.Hearts, rank := Rank.Ace, face_up := false }]
           waste := []
           move_count := 1 }, Except.ok ()) ∧
    (c4State.deal_from_stock.1.deal_from_stock.1.waste =
      [{ suit := Suit.Hearts, rank := Rank.Ace, face_up := true }]) ∧
    (c4State.deal_from_stock.1.deal_from_stock.1.deal_from_stock.1.waste =
      [{ suit := Suit.Hearts, rank := Rank.Ace, face_up := true },
       { suit := Suit.Spades, rank := Rank.Two, face_up := true }]) ∧
    (c4State.deal_from_stock.1.deal_from_stock.1.deal_from_stock.1.waste.getLast? =
      some { suit := Suit.Spades, rank := Rank.Two, face_up := true }) ∧
    ({ suit := Suit.Spades, rank := Rank.Two, face_up := true } : Card) ≠
      { suit := Suit.Hearts, rank := Rank.Ace, face_up := true } := by
  refine ⟨rfl, rfl, rfl, by decide, by decide, by decide, by decide⟩

/-- Claim C4 (amended): with stock empty and waste non-empty, `DealFromStock` moves every
    waste card to the stock flipped face-down, leaves the waste empty, increments
    `move_count` by one, and reverses waste order so that the least-recently-dealt card
    (the head of the waste) becomes deal-ready FIRST: it sits at the dealing end of the
    new stock, so it is the first card dealt on the next pass. -/
theorem c4_recycle (s : GameState) (h0 : s.stock = []) (h1 : s.waste ≠ []) :
    s.deal_from_stock =
      ({ s with
           stock := s.waste.reverse.map (fun c => { c with face_up := false })
           waste := []
           move_count := s.move_count + 1 }, Except.ok ()) ∧
    (∀ c ∈ s.waste.reverse.map (fun c => { c with face_up := false }), c.face_up = false) ∧
    (s.waste.reverse.map (fun c => { c with face_up := false })).length = s.waste.length ∧
    (s.waste.reverse.map (fun c => { c with face_up := false })).getLast? =
      s.waste.head?.map (fun c => { c with face_up := false }) := by
  refine ⟨?_, ?_, by simp, ?_⟩
  · unfold GameState.deal_from_stock
    rw [if_pos (by simp [List.isEmpty_iff, h0]), if_neg (by simp [List.isEmpty_iff, h1])]
    rw [recycleLoop_spec _ _ rfl]
    simp [h0]
  · intro c hc
    simp only [List.mem_map] at hc
    obtain ⟨d, _, rfl⟩ := hc
    rfl
  · rw [List.map_reverse, List.getLast?_reverse, List.head?_map]

/-- Witness for C4 (amended) at a concrete input: recycling `c4State` drains the waste
    into the face-down, reversed stock. -/
theorem c4_recycle_witness :
    c4State.deal_from_stock =
      ({ c4State with
           stock := [{ suit := Suit.Spades, rank := Rank.Two, face_up := false },
                     { suit := Suit.Hearts, rank := Rank.Ace, face_up := false }]
           waste := []
           move_count := 1 }, Except.ok ()) ∧
    ([{ suit := Suit.Spades, rank := Rank.Two, face_up := false },
      { suit := Suit.Hearts, rank := Rank.Ace, face_up := false }] : List Card).getLast? =
      some { suit := Suit.Hearts, rank := Rank.Ace, face_up := false } := by
  have h := c4_recycle c4State rfl (by decide)
  exact ⟨h.1, rfl⟩

/-- Setting a list entry to its own value is the identity. -/
lemma set_getD_self {α : Type} (l : List α) (n : Nat) (d : α) (h : n < l.length) :
    l.set n (l.getD n d) = l := by
  apply List.ext_getElem?
  intro i
  rw [List.getElem?_set]
  by_cases hni : n = i
  · subst hni
    rw [if_pos rfl, if_pos h, List.getD_eq_getElem?_getD, List.getElem?_eq_getElem h]
    rfl
  · simp [hni]

/-- Reading back a just-set list entry. -/
lemma getD_set_self {α : Type} (l : List α) (n : Nat) (a d : α) (h : n < l.length) :
    (l.set n a).getD n d = a := by
  rw [List.getD_eq_getElem?_getD, List.getElem?_set, if_pos rfl, if_pos h]
  rfl

/-- Characterization of the inner dealing loop when the deck has enough cards left:
    it appends, to column `col`, one card per remaining row, taken consecutively from
    the deck at `card_index`, face-up exactly on the row equal to `col`. -/
lemma dealInner_spec (deck : List Card) (col : Nat) :
    ∀ (rows : List Nat) (tab : List (List Card)) (ci : Nat),
      col < tab.length → ci + rows.length ≤ deck.length →
      dealInner deck col rows (tab, ci) =
        (tab.set col (tab.getD col [] ++
            (rows.zip ((deck.drop ci).take rows.length)).map
              (fun rc => { rc.2 with face_up := decide (rc.1 = col) })),
         ci + rows.length) := by
  intro rows
  induction rows with
  | nil =>
    intro tab ci hcol _
    rw [dealInner]
    simp only [List.zip_nil_left, List.map_nil, List.append_nil, List.length_nil,
      Nat.add_zero]
    rw [set_getD_self _ _ _ hcol]
  | cons row rows ih =>
    intro tab ci hcol hlen
    have hci : ci < deck.length := by
      simp only [List.length_cons] at hlen
      omega
    rw [dealInner, List.getElem?_eq_getElem hci]
    simp only
    rw [ih _ (ci + 1) (by rw [List.length_set]; exact hcol)
        (by simp only [List.length_cons] at hlen; omega)]
    have hgetD : (tab.set col (tab.getD col [] ++
        [{ deck[ci] with face_up := decide (row = col) }])).getD col [] =
        tab.getD col [] ++ [{ deck[ci] with face_up := decide (row = col) }] :=
      getD_set_self _ _ _ _ hcol
    have hslice : (deck.drop ci).take (rows.length + 1) =
        deck[ci] :: (deck.drop (ci + 1)).take rows.length := by
      rw [List.drop_eq_getElem_cons hci, List.take_succ_cons]
    simp only [Prod.mk.injEq]
    constructor
    · rw [List.set_set, hgetD]
      congr 1
      rw [List.length_cons, hslice, List.zip_cons_cons, List.map_cons]
      simp [List.append_assoc]
    · simp only [List.length_cons]
      omega

/-- The pile dealt into tableau column `col`, with the deal starting at deck index
    `start`: `col + 1` consecutive deck cards, face-up only on the last. -/
def dealtColumn (deck : List Card) (start col : Nat) : List Card :=
  ((List.range (col + 1)).zip ((deck.drop start).take (col + 1))).map
    fun rc => { rc.2 with face_up := decide (rc.1 = col) }

/-- Full characterization of `GameState.new` on a 52-card deck. -/
lemma new_eq (deck : List Card) (h : deck.length = 52) :
    GameState.new deck =
      { tableau := [dealtColumn deck 0 0, dealtColumn deck 1 1, dealtColumn deck 3 2,
                    dealtColumn deck 6 3, dealtColumn deck 10 4, dealtColumn deck 15 5,
                    dealtColumn deck 21 6]
        foundations := List.replicate 4 []
        stock := deck.drop 28
        waste := []
        move_count := 0
        game_won := false
        draw_count := DrawCount.Three } := by
  have r7 : List.range 7 = [0, 1, 2, 3, 4, 5, 6] := rfl
  simp only [GameState.new, r7, dealOuter]
  rw [dealInner_spec deck 0, dealInner_spec deck 1, dealInner_spec deck 2,
      dealInner_spec deck 3, dealInner_spec deck 4, dealInner_spec deck 5,
      dealInner_spec deck 6]
  · rfl
  all_goals simp [List.length_set, List.length_replicate, List.length_range, h]

/-- Length of a dealt column when the deck has enough cards. -/
lemma dealtColumn_length (deck : List Card) (start col : Nat)
    (h : start + (col + 1) ≤ deck.length) :
    (dealtColumn deck start col).length = col + 1 := by
  simp only [dealtColumn, List.length_map, List.length_zip, List.length_range,
    List.length_take, List.length_drop]
  omega

/-- In a dealt column only the card at index `col` (the last one) is face-up. -/
lemma dealtColumn_face (deck : List Card) (start col j : Nat) (c : Card)
    (h : start + (col + 1) ≤ deck.length)
    (hget : (dealtColumn deck start col)[j]? = some c) :
    c.face_up = decide (j = col) := by
  obtain ⟨hj, hc⟩ := List.getElem?_eq_some_iff.1 hget
  rw [← hc]
  have hj2 : j < col + 1 := by
    have hl := dealtColumn_length deck start col h
    omega
  simp [dealtColumn, List.getElem_map, List.getElem_zip, List.getElem_range]

/-- Every card of `create_deck` is face-down. -/
lemma create_deck_all_face_down : ∀ c ∈ create_deck, c.face_up = false := by decide

/-- Lemma: `create_deck` has 52 cards. -/
lemma create_deck_length : create_deck.length = 52 := rfl

/-- Claim C5: a freshly created game (`GameState.new` on any shuffle outcome, and the
    state installed by a `NewGame` action) has tableau column `i` holding exactly `i + 1`
    cards with only the last face-up, a stock of 24 face-down cards, empty foundations and
    waste, `move_count` 0 and `game_won` false. -/
theorem c5_deal_shape (deck : List Card) (hp : deck.Perm create_deck) :
    (GameState.new deck).tableau.length = 7 ∧
    (∀ i, i < 7 → ∀ pile, (GameState.new deck).tableau[i]? = some pile →
      pile.length = i + 1 ∧
      (∀ j c, pile[j]? = some c → (c.face_up = true ↔ j = i))) ∧
    (GameState.new deck).stock.length = 24 ∧
    (∀ c ∈ (GameState.new deck).stock, c.face_up = false) ∧
    (GameState.new deck).foundations = [[], [], [], []] ∧
    (GameState.new deck).waste = [] ∧
    (GameState.new deck).move_count = 0 ∧
    (GameState.new deck).game_won = false ∧
    (∀ s : GameState, GameState.handle_action deck s GameAction.NewGame =
      some ({ GameState.new deck with draw_count := s.draw_count }, Except.ok ())) := by
  have h52 : deck.length = 52 := by
    rw [hp.length_eq, create_deck_length]
  have hshape : ∀ start col, start + (col + 1) ≤ deck.length →
      (dealtColumn deck start col).length = col + 1 ∧
      (∀ j c, (dealtColumn deck start col)[j]? = some c →
        (c.face_up = true ↔ j = col)) := by
    intro start col hsc
    refine ⟨dealtColumn_length deck start col hsc, ?_⟩
    intro j c hget
    rw [dealtColumn_face deck start col j c hsc hget]
    simp
  refine ⟨?_, ?_, ?_, ?_, ?_, ?_, ?_, ?_, fun s => rfl⟩
  · rw [new_eq deck h52]
    rfl
  · intro i hi pile hpile
    rw [new_eq deck h52] at hpile
    interval_cases i
    · exact (Option.some.injEq _ _ ▸ hpile) ▸ hshape 0 0 (by omega)
    · exact (Option.some.injEq _ _ ▸ hpile) ▸ hshape 1 1 (by omega)
    · exact (Option.some.injEq _ _ ▸ hpile) ▸ hshape 3 2 (by omega)
    · exact (Option.some.injEq _ _ ▸ hpile) ▸ hshape 6 3 (by omega)
    · exact (Option.some.injEq _ _ ▸ hpile) ▸ hshape 10 4 (by omega)
    · exact (Option.some.injEq _ _ ▸ hpile) ▸ hshape 15 5 (by omega)
    · exact (Option.some.injEq _ _ ▸ hpile) ▸ hshape 21 6 (by omega)
  · rw [new_eq deck h52]
    simp [List.length_drop, h52]
  · intro c hc
    rw [new_eq deck h52] at hc
    simp only at hc
    exact create_deck_all_face_down c (hp.mem_iff.1 (List.mem_of_mem_drop hc))
  · rw [new_eq deck h52]
    rfl
  · rfl
  · rfl
  · rfl

/-- Witness for C5 at a concrete input: the unshuffled deck deals the triangular tableau
    and a 24-card stock. -/
theorem c5_deal_shape_witness :
    (GameState.new create_deck).tableau.length = 7 ∧
    (GameState.new create_deck).stock.length = 24 ∧
    (GameState.new create_deck).waste = [] := by
  have h := c5_deal_shape create_deck (List.Perm.refl _)
  exact ⟨h.1, h.2.2.1, h.2.2.2.2.2.1⟩

/-- Orientation marks do not change card identities in a dealt column. -/
lemma keyOf_dealtColumn (deck : List Card) (start col : Nat) :
    (dealtColumn deck start col).map keyOf =
      ((deck.drop start).take (col + 1)).map keyOf := by
  unfold dealtColumn
  rw [List.map_map]
  have hc : (keyOf ∘ fun rc : Nat × Card => { rc.2 with face_up := decide (rc.1 = col) }) =
      keyOf ∘ Prod.snd := rfl
  rw [hc, ← List.map_map, List.map_snd_zip]
  simp only [List.length_range, List.length_take, List.length_drop]
  omega

/-- A fresh deal holds exactly the cards of the deck, identities preserved. -/
lemma new_allCards_keys (deck : List Card) (h : deck.length = 52) :
    (GameState.new deck).allCards.map keyOf = deck.map keyOf := by
  rw [new_eq deck h]
  simp only [GameState.allCards, List.flatten_cons, List.flatten_nil, List.append_nil]
  have hrep : (List.replicate 4 ([] : List Card)).flatten = [] := rfl
  rw [hrep]
  simp only [List.append_nil, List.nil_append, List.map_append]
  rw [keyOf_dealtColumn deck 0 0, keyOf_dealtColumn deck 1 1,
      keyOf_dealtColumn deck 3 2, keyOf_dealtColumn deck 6 3,
      keyOf_dealtColumn deck 10 4, keyOf_dealtColumn deck 15 5,
      keyOf_dealtColumn deck 21 6]
  simp only [List.map_take, List.map_drop, List.drop_zero, Nat.reduceAdd]
  have e1 : (deck.map keyOf).take 1 ++ ((deck.map keyOf).drop 1).take 2 =
      (deck.map keyOf).take 3 := (List.take_add _ 1 2).symm
  have e2 : (deck.map keyOf).take 3 ++ ((deck.map keyOf).drop 3).take 3 =
      (deck.map keyOf).take 6 := (List.take_add _ 3 3).symm
  have e3 : (deck.map keyOf).take 6 ++ ((deck.map keyOf).drop 6).take 4 =
      (deck.map keyOf).take 10 := (List.take_add _ 6 4).symm
  have e4 : (deck.map keyOf).take 10 ++ ((deck.map keyOf).drop 10).take 5 =
      (deck.map keyOf).take 15 := (List.take_add _ 10 5).symm
  have e5 : (deck.map keyOf).take 15 ++ ((deck.map keyOf).drop 15).take 6 =
      (deck.map keyOf).take 21 := (List.take_add _ 15 6).symm
  have e6 : (deck.map keyOf).take 21 ++ ((deck.map keyOf).drop 21).take 7 =
      (deck.map keyOf).take 28 := (List.take_add _ 21 7).symm
  rw [← List.append_assoc, e1, ← List.append_assoc, e2, ← List.append_assoc, e3,
      ← List.append_assoc, e4, ← List.append_assoc, e5, e6, List.take_append_drop]

/-- Replacing a card by one with the same identity preserves the pile identities. -/
lemma pile_set_keys (pile : List Card) (idx : Nat) (card card2 : Card)
    (hidx : pile[idx]? = some card) (hkey : keyOf card2 = keyOf card) :
    (pile.set idx card2).map keyOf = pile.map keyOf := by
  obtain ⟨hlt, hc⟩ := List.getElem?_eq_some_iff.1 hidx
  rw [List.set_eq_take_append_cons_drop, if_pos hlt]
  conv_rhs => rw [← List.take_append_drop idx pile]
  rw [List.drop_eq_getElem_cons hlt]
  simp only [List.map_append, List.map_cons]
  rw [hkey, hc]

/-- Replacing a tableau column by one with the same identities preserves the tableau ones. -/
lemma tableau_set_keys (tab : List (List Card)) (col : Nat) (pile p2 : List Card)
    (hcol : tab[col]? = some pile) (hk : p2.map keyOf = pile.map keyOf) :
    (tab.set col p2).flatten.map keyOf = tab.flatten.map keyOf := by
  obtain ⟨hlt, hc⟩ := List.getElem?_eq_some_iff.1 hcol
  rw [List.set_eq_take_append_cons_drop, if_pos hlt]
  conv_rhs => rw [← List.take_append_drop col tab]
  rw [List.drop_eq_getElem_cons hlt]
  simp only [List.flatten_append, List.flatten_cons, List.map_append]
  rw [hk, hc]

/-- Moving a permutation of the dropped suffix behind the waste is a permutation of
    stock-plus-waste. -/
lemma deal_perm_helper {α : Type} (S W R : List α) (n : Nat) (h : R.Perm (S.drop n)) :
    (S.take n ++ (W ++ R)).Perm (S ++ W) := by
  refine List.Perm.trans (List.Perm.append_left _ List.perm_append_comm) ?_
  rw [← List.append_assoc]
  refine List.Perm.trans (List.Perm.append_right _ (List.Perm.append_left _ h)) ?_
  rw [List.take_append_drop]

/-- Lemma: `deal_from_stock` preserves card identities and does not touch tableau or
    foundations. -/
lemma deal_from_stock_keys (t : GameState) :
    ((t.deal_from_stock.1.allCards).map keyOf).Perm ((t.allCards).map keyOf) ∧
    t.deal_from_stock.1.tableau = t.tableau ∧
    t.deal_from_stock.1.foundations = t.foundations := by
  simp only [GameState.deal_from_stock]
  split_ifs with hs hw
  · exact ⟨List.Perm.refl _, rfl, rfl⟩
  · rw [recycleLoop_spec t.waste.length t rfl]
    refine ⟨?_, rfl, rfl⟩
    simp only [GameState.allCards, List.map_append, List.append_nil, List.map_map]
    have hcomp : (keyOf ∘ fun c : Card => { c with face_up := false }) = keyOf := rfl
    rw [hcomp, List.map_reverse]
    conv_rhs => rw [List.append_assoc]
    refine List.Perm.append_left _ (List.Perm.append_left _ ?_)
    exact List.reverse_perm _
  · have hne : t.stock ≠ [] := by
      intro he
      apply hs
      simp [he]
    have hn : dealCount t.draw_count t.stock.length ≤ t.stock.length := by
      cases t.draw_count
      · have : 0 < t.stock.length := List.length_pos.2 hne
        simp [dealCount]
        omega
      · simp [dealCount]
    rw [dealLoop_spec _ _ hn]
    refine ⟨?_, rfl, rfl⟩
    simp only [GameState.allCards, List.map_append, List.map_map]
    have hcomp : (keyOf ∘ fun c : Card => { c with face_up := true }) = keyOf := rfl
    rw [hcomp, List.map_reverse, List.map_take, List.map_drop]
    conv_lhs => rw [List.append_assoc]
    conv_rhs => rw [List.append_assoc]
    refine List.Perm.append_left _ ?_
    exact deal_perm_helper _ _ _ _ (List.reverse_perm _)

/-- One `handle_action` step preserves the conservation invariant. -/
lemma handle_action_keys (deck : List Card) (hdeck : deck.Perm create_deck)
    (t u : GameState) (action : GameAction) (r : Except String Unit)
    (h : GameState.handle_action deck t action = some (u, r))
    (hkeys : ((t.allCards).map keyOf).Perm (create_deck.map keyOf))
    (h7 : t.tableau.length = 7) (h4 : t.foundations.length = 4) :
    ((u.allCards).map keyOf).Perm (create_deck.map keyOf) ∧
    u.tableau.length = 7 ∧ u.foundations.length = 4 := by
  cases action with
  | MoveCard o d =>
    simp only [GameState.handle_action, GameState.move_card, Option.some.injEq,
      Prod.mk.injEq] at h
    obtain ⟨hu, _⟩ := h
    subst hu
    exact ⟨hkeys, h7, h4⟩
  | Undo =>
    simp only [GameState.handle_action, Option.some.injEq, Prod.mk.injEq] at h
    obtain ⟨hu, _⟩ := h
    subst hu
    exact ⟨hkeys, h7, h4⟩
  | NewGame =>
    simp only [GameState.handle_action, Option.some.injEq, Prod.mk.injEq] at h
    obtain ⟨hu, _⟩ := h
    subst hu
    have h52 : deck.length = 52 := by rw [hdeck.length_eq, create_deck_length]
    refine ⟨?_, ?_, rfl⟩
    · have he : (GameState.new_with_draw_count deck t.draw_count).allCards =
          (GameState.new deck).allCards := rfl
      rw [he, new_allCards_keys deck h52]
      exact hdeck.map keyOf
    · have he : (GameState.new_with_draw_count deck t.draw_count).tableau =
          (GameState.new deck).tableau := rfl
      rw [he, new_eq deck h52]
      rfl
  | DealFromStock =>
    simp only [GameState.handle_action, Option.some.injEq] at h
    have hu : t.deal_from_stock.1 = u := congrArg Prod.fst h
    subst hu
    obtain ⟨hperm, htab, hfound⟩ := deal_from_stock_keys t
    refine ⟨hperm.trans hkeys, ?_, ?_⟩
    · rw [htab]
      exact h7
    · rw [hfound]
      exact h4
  | FlipCard pos =>
    simp only [GameState.handle_action] at h
    rcases flip_card_cases t u pos r h with rfl | ⟨col, idx, pile, card, _, hp, hcard, _, hu⟩
    · exact ⟨hkeys, h7, h4⟩
    · subst hu
      have hkk : (pile.set idx { card with face_up := true }).map keyOf =
          pile.map keyOf := pile_set_keys pile idx card _ hcard rfl
      have htk := tableau_set_keys t.tableau col pile _ hp hkk
      refine ⟨?_, ?_, h4⟩
      · have he : ((({ t with
            tableau := t.tableau.set col (pile.set idx { card with face_up := true })
            move_count := t.move_count + 1 } : GameState).allCards).map keyOf) =
            (t.allCards).map keyOf := by
          simp only [GameState.allCards, List.map_append]
          rw [htk]
        rw [he]
        exact hkeys
      · simp only [List.length_set]
        exact h7

/-- Card identities of `create_deck` are pairwise distinct. -/
lemma create_deck_keys_nodup : (create_deck.map keyOf).Nodup := by decide

/-- Claim C2: every state reachable from a fresh game by `handle_action` steps (each
    `NewGame` consuming a shuffle outcome) still holds exactly the original 52 distinct
    cards, partitioned across the seven tableau piles, four foundations, stock and waste —
    none duplicated, none lost. -/
theorem c2_conservation (deck : List Card) (hdeck : deck.Perm create_deck)
    (s : GameState) (hr : Reaches (GameState.new deck) s) :
    ((s.allCards).map keyOf).Perm (create_deck.map keyOf) ∧
    s.tableau.length = 7 ∧ s.foundations.length = 4 ∧
    ((s.allCards).map keyOf).Nodup := by
  have h52 : deck.length = 52 := by rw [hdeck.length_eq, create_deck_length]
  have main : ((s.allCards).map keyOf).Perm (create_deck.map keyOf) ∧
      s.tableau.length = 7 ∧ s.foundations.length = 4 := by
    induction hr with
    | refl =>
      refine ⟨?_, ?_, rfl⟩
      · rw [new_allCards_keys deck h52]
        exact hdeck.map keyOf
      · rw [new_eq deck h52]
        rfl
    | step t u deck2 a r hreach hperm hstep ih =>
      exact handle_action_keys deck2 hperm t u a r hstep ih.1 ih.2.1 ih.2.2
  exact ⟨main.1, main.2.1, main.2.2, (main.1.nodup_iff).2 create_deck_keys_nodup⟩

/-- Witness for C2 at a concrete input: the freshly dealt unshuffled deck conserves all
    card identities. -/
theorem c2_conservation_witness :
    (((GameState.new create_deck).allCards).map keyOf).Perm (create_deck.map keyOf) ∧
    (GameState.new create_deck).tableau.length = 7 := by
  have h := c2_conservation create_deck (List.Perm.refl _) (GameState.new create_deck)
    (Reaches.refl _)
  exact ⟨h.1, h.2.1⟩
